import Mathlib

/-!
Verification of the authentication/session/token-refresh module
(`src/unnamed/part_000` of the repository, an auth module built around
`tokens`, `tokenMutex`, `setTokens`, `refreshToken`, `getToken`,
`getLastUserData`, `getLatestUserData`, `parseUserData`, `requestUserData`).

The module is embedded shallowly:
* the mutable module state (`tokens`, the `localStorage` entries) becomes an
  explicit state record;
* `JSON.stringify` / `JSON.parse` for the fixed `TokenSet` shape become an
  executable renderer and parser over `List Char`;
* the cooperative single-threaded concurrency (async-mutex `runExclusive`,
  promise callbacks) becomes a small-step machine driven by a schedule of
  events, with a FIFO queue modelling the mutex and a list of pending
  refresh callbacks modelling in-flight `oauthToken` network calls;
* the entitlement fetcher becomes a pure function parameterised by the
  outcomes of its external collaborators (network fetch, `jwt.verify`,
  plan-code lookup).
-/

/-- The token state of the module (source lines 95-99):
`{ refreshToken: string; accessToken: string; accessTokenExpiry: number }`.
`accessTokenExpiry` is a time in milliseconds. -/
structure TokenSet where
  refreshToken : String
  accessToken : String
  accessTokenExpiry : Int
deriving Repr, DecidableEq

/-! ## JSON serialization of the token state

`setTokens` stores `JSON.stringify(newTokens)` under the key `tokens`
(source line 107) and the initial load reads it back with `JSON.parse`
(source line 99).  For the fixed object shape above, `JSON.stringify`
produces `null` or
`\x7b"refreshToken":"...","accessToken":"...","accessTokenExpiry":N\x7d`
with `"` and `\` escaped in the string values.  The renderer below produces
exactly that text and the parser models `JSON.parse` on this fragment. -/

/-- JSON escaping of a single character: `"` and `\` get a backslash. -/
def escapeJsonChar (c : Char) : List Char :=
  if c = '"' ∨ c = '\\' then ['\\', c] else [c]

/-- JSON escaping of a whole string body. -/
def escapeJsonString : List Char → List Char
  | [] => []
  | c :: cs => escapeJsonChar c ++ escapeJsonString cs

/-- A JSON string literal: quote, escaped body, quote. -/
def renderString (s : String) : List Char :=
  '"' :: (escapeJsonString s.data ++ ['"'])

/-- Decimal digit to character. -/
def digitToChar (d : Nat) : Char := Char.ofNat (48 + d)

/-- Character to decimal digit value. -/
def charToDigit (c : Char) : Nat := c.toNat - 48

/-- Fuel-driven rendering of the decimal digits of `n` (most significant
first); the fuel only bounds the recursion depth. -/
def renderNatAux : Nat → Nat → List Char
  | 0, _ => []
  | fuel + 1, n => if n = 0 then [] else renderNatAux fuel (n / 10) ++ [digitToChar (n % 10)]

/-- Decimal rendering of a natural number, as `JSON.stringify` prints it. -/
def renderNat (n : Nat) : List Char :=
  if n = 0 then ['0'] else renderNatAux (n + 1) n

/-- Decimal rendering of an integer, as `JSON.stringify` prints it. -/
def renderInt (i : Int) : List Char :=
  if i < 0 then '-' :: renderNat i.natAbs else renderNat i.natAbs

/-- The characters `"key":`, the object-member key part. -/
def memberKey (key : String) : List Char := renderString key ++ [':']

/-- The exact text `JSON.stringify` produces for the token state: `null`
for a logged-out state, otherwise the three members in declaration order
(source lines 95-99, 107, 134). -/
def stringifyTokens : Option TokenSet → List Char
  | none => ['n', 'u', 'l', 'l']
  | some t =>
      ('\x7b' :: memberKey "refreshToken") ++ renderString t.refreshToken ++
      (',' :: memberKey "accessToken") ++ renderString t.accessToken ++
      (',' :: memberKey "accessTokenExpiry") ++ renderInt t.accessTokenExpiry ++ ['\x7d']

/-- Parse the body of a JSON string literal up to the closing quote,
undoing backslash escapes; returns the body and the remaining input. -/
def parseStringBody : List Char → Option (List Char × List Char)
  | [] => none
  | c :: rest =>
    if c = '"' then some ([], rest)
    else if c = '\\' then
      match rest with
      | [] => none
      | d :: rest2 => (parseStringBody rest2).map (fun p => (d :: p.1, p.2))
    else (parseStringBody rest).map (fun p => (c :: p.1, p.2))

/-- Parse a JSON string literal (opening quote included). -/
def parseStringLit : List Char → Option (String × List Char)
  | [] => none
  | c :: rest =>
    if c = '"' then (parseStringBody rest).map (fun p => (String.mk p.1, p.2)) else none

/-- Consume an expected literal sequence of characters. -/
def expectChars : List Char → List Char → Option (List Char)
  | [], rest => some rest
  | e :: es, c :: cs => if c = e then expectChars es cs else none
  | _ :: _, [] => none

/-- Decimal digit test. -/
def isDigitChar (c : Char) : Bool := decide ('0' ≤ c) && decide (c ≤ '9')

/-- Whether the input starts with a decimal digit (used to state where a
number literal certainly ends). -/
def digitLeading : List Char → Bool
  | [] => false
  | c :: _ => isDigitChar c

/-- Accumulate decimal digits until a non-digit is reached. -/
def parseNatAux : Nat → List Char → Nat × List Char
  | acc, [] => (acc, [])
  | acc, c :: cs => if isDigitChar c then parseNatAux (10 * acc + charToDigit c) cs else (acc, c :: cs)

/-- Parse a natural number (at least one digit required). -/
def parseNatNum : List Char → Option (Nat × List Char)
  | [] => none
  | c :: cs => if isDigitChar c then some (parseNatAux (charToDigit c) cs) else none

/-- Parse an integer: optional minus sign, then digits. -/
def parseIntNum : List Char → Option (Int × List Char)
  | [] => none
  | c :: cs =>
    if c = '-' then (parseNatNum cs).map (fun p => (-(p.1 : Int), p.2))
    else (parseNatNum (c :: cs)).map (fun p => ((p.1 : Int), p.2))

/-- `JSON.parse` on the persisted token text: either the literal `null` or
the three-member object written by `stringifyTokens`. -/
def parseTokensJson (cs : List Char) : Option (Option TokenSet) :=
  if cs = ['n', 'u', 'l', 'l'] then some none else
  (expectChars ('\x7b' :: memberKey "refreshToken") cs).bind fun r1 =>
  (parseStringLit r1).bind fun p1 =>
  (expectChars (',' :: memberKey "accessToken") p1.2).bind fun r3 =>
  (parseStringLit r3).bind fun p2 =>
  (expectChars (',' :: memberKey "accessTokenExpiry") p2.2).bind fun r5 =>
  (parseIntNum r5).bind fun p3 =>
  (expectChars ['\x7d'] p3.2).bind fun r7 =>
  if r7 = [] then some (some ⟨p1.1, p2.1, p3.1⟩) else none

/-- The initial load of the token state at process start (source line 99):
`JSON.parse(localStorage.getItem('tokens')!)`, where a missing entry gives
`JSON.parse(null)`, which is `null` (source line 100). -/
def loadTokens : Option (List Char) → Option (Option TokenSet)
  | none => some none
  | some s => parseTokensJson s

/-! ## The getToken body (source lines 141-160)

Inside `tokenMutex.runExclusive`:
```
if (!tokens) return;
const timeUntilExpiry = tokens.accessTokenExpiry.valueOf() - Date.now();
let refreshPromise = timeUntilExpiry < 1000 * 60 * 10 ? refreshToken() : null;
if (timeUntilExpiry > 1000 * 5) return tokens.accessToken;
else return refreshPromise!;
```
The synchronous body decides one of four actions; `refreshPromise!` is a
type-level non-null assertion, so the fourth action stands for the branch
where the assertion is wrong and `null` would be returned. -/

/-- The action chosen by the synchronous body of `getToken`. In
`useCached`, the boolean records whether a background refresh was started
(the `timeUntilExpiry < 1000 * 60 * 10` test, with the `let` inlined). -/
inductive BodyAction where
  | noTokens
  | useCached (token : String) (refreshStarted : Bool)
  | awaitRefresh
  | nullAssertHit
deriving Repr, DecidableEq

/-- The synchronous decision logic of `getToken` (source lines 143-158). -/
def getTokenBody : Option TokenSet → Int → BodyAction
  | none, _ => .noTokens
  | some t, now =>
    if t.accessTokenExpiry - now > 1000 * 5 then
      .useCached t.accessToken (decide (t.accessTokenExpiry - now < 1000 * 60 * 10))
    else if t.accessTokenExpiry - now < 1000 * 60 * 10 then .awaitRefresh
    else .nullAssertHit

/-! ## The event machine

The browser runs this module single-threaded: each synchronous block is one
atomic turn, and turns interleave at awaits and promise callbacks.  The
machine below executes a schedule of turns:

* `callGetToken id now outcome callbackTime` - a caller invokes
  `getToken()`; `outcome` and `callbackTime` predetermine what the
  identity-provider network call started by this invocation (if any) will
  answer and at what `Date.now()` its callback will run;
* `callSetTokens value` - the `authenticated` listener (source lines
  111-117, `value = some ...`) or the `logout` listener (source line 119,
  `value = none`, reached from `logOut()` via the `logout` event);
* `fireCallback i` - the network answer of the i-th refresh started so far
  arrives and the `oauthToken` callback (source lines 129-137) runs.

`tokenMutex.runExclusive` (async-mutex) is modelled exactly: a caller that
finds the mutex locked queues FIFO; the mutex is released when the value
returned by the exclusive body resolves, which for a blocking refresh is
only when the refresh callback settles its promise. -/

/-- Predetermined outcome of one `auth0Client.oauthToken` exchange
(source lines 126-137): the callback receives either an error or
`{ accessToken, expiresIn }` (in seconds). -/
inductive RefreshOutcome where
  | success (accessToken : String) (expiresIn : Int)
  | failure (error : String)
deriving Repr, DecidableEq

/-- One in-flight refresh: how it will answer, at what time the callback
fires, which blocked `getToken` call (if any) is awaiting it, and whether
the callback has already run. -/
structure PendingRefresh where
  outcome : RefreshOutcome
  callbackTime : Int
  blockingTask : Option Nat
  fired : Bool
deriving Repr, DecidableEq

/-- How a `getToken()` promise settled: resolved with `string | undefined`,
or rejected with an error (the spec's RefreshError). -/
inductive TaskResult where
  | returned (value : Option String)
  | failed (error : String)
deriving Repr, DecidableEq

/-- A body waiting in the mutex FIFO queue. -/
inductive QueuedAction where
  | queuedGetToken (id : Nat) (now : Int) (outcome : RefreshOutcome) (callbackTime : Int)
  | queuedSetTokens (value : Option TokenSet)
deriving Repr, DecidableEq

/-- Where a write to the token fields originated. -/
inductive WriteSource where
  | viaSetTokens
  | blockingRefreshCallback
  | backgroundRefreshCallback
deriving Repr, DecidableEq

/-- An external schedule turn. -/
inductive Event where
  | callGetToken (id : Nat) (now : Int) (outcome : RefreshOutcome) (callbackTime : Int)
  | callSetTokens (value : Option TokenSet)
  | fireCallback (i : Nat)
deriving Repr, DecidableEq

/-- The whole observable state of the module plus instrumentation:
`writes` records, for every mutation of the token fields, its origin and
whether the mutex was locked at that moment; `reports` records every
`reportError` call made by the token code (there are none in the source);
`crashed` records a TypeError escaping (a property write on `null`);
`nullAssertReturnedNull` records `return refreshPromise!` returning null;
`refreshStarts` counts `refreshToken()` invocations. -/
structure World where
  tokens : Option TokenSet
  stored : Option (List Char)
  mutexLocked : Bool
  waiting : List QueuedAction
  pendings : List PendingRefresh
  results : List (Nat × TaskResult)
  writes : List (WriteSource × Bool)
  reports : List String
  crashed : Bool
  nullAssertReturnedNull : Bool
  refreshStarts : Nat
deriving Repr, DecidableEq

/-- The module state right after the initial load (source lines 95-102):
tokens seeded from storage, mutex free, nothing in flight. -/
def initWorld (tokens0 : Option TokenSet) : World :=
  { tokens := tokens0
    stored := some (stringifyTokens tokens0)
    mutexLocked := false
    waiting := []
    pendings := []
    results := []
    writes := []
    reports := []
    crashed := false
    nullAssertReturnedNull := false
    refreshStarts := 0 }

/-- Run the body of `setTokens` (source lines 104-109) with the mutex
already acquired: replace the token state and write through to storage.
The boolean is whether the body suspends still holding the mutex (it never
does). -/
def runSetTokensBody (value : Option TokenSet) (w : World) : World × Bool :=
  ({ w with
      tokens := value
      stored := some (stringifyTokens value)
      writes := w.writes ++ [(.viaSetTokens, w.mutexLocked)] }, false)

/-- Run the body of `getToken` (source lines 142-159) with the mutex
already acquired.  A refresh that is started registers a pending callback;
in the `awaitRefresh` case the body suspends, keeping the mutex, until that
callback settles.  In the `nullAssertHit` case the runtime value of
`refreshPromise!` is `null`, so the call resolves with it. -/
def runGetTokenBody (id : Nat) (now : Int) (outcome : RefreshOutcome) (callbackTime : Int)
    (w : World) : World × Bool :=
  match getTokenBody w.tokens now with
  | .noTokens => ({ w with results := (id, .returned none) :: w.results }, false)
  | .useCached tok started =>
      if started then
        ({ w with
            pendings := w.pendings ++ [⟨outcome, callbackTime, none, false⟩]
            refreshStarts := w.refreshStarts + 1
            results := (id, .returned (some tok)) :: w.results }, false)
      else
        ({ w with results := (id, .returned (some tok)) :: w.results }, false)
  | .awaitRefresh =>
      ({ w with
          pendings := w.pendings ++ [⟨outcome, callbackTime, some id, false⟩]
          refreshStarts := w.refreshStarts + 1 }, true)
  | .nullAssertHit =>
      ({ w with
          results := (id, .returned none) :: w.results
          nullAssertReturnedNull := true }, false)

/-- Dispatch a queued body. -/
def runQueuedAction : QueuedAction → World → World × Bool
  | .queuedGetToken id now oc cbT, w => runGetTokenBody id now oc cbT w
  | .queuedSetTokens v, w => runSetTokensBody v w

/-- Drain the mutex FIFO queue after a release: run queued bodies in order
until one suspends holding the mutex, or the queue empties and the mutex
unlocks. -/
def processQueue : List QueuedAction → World → World
  | [], w => { w with mutexLocked := false }
  | a :: rest, w =>
    let r := runQueuedAction a w
    if r.2 then { r.1 with waiting := rest } else processQueue rest r.1

/-- The `oauthToken` callback of the i-th refresh fires (source lines
129-137).  On error the promise rejects; a blocked `getToken` then rejects
too (the spec's RefreshError) and the mutex is released, while a background
refresh becomes an unhandled rejection and nothing else happens.  On
success the callback writes `tokens!.accessToken` and
`tokens!.accessTokenExpiry`: if `tokens` is `null` at that moment the
property write throws a TypeError (`crashed`); otherwise the fields are
updated, storage is rewritten, and the promise resolves with the new
access token, releasing the mutex when a blocked `getToken` was awaiting. -/
def fireRefreshCallback (i : Nat) (w : World) : World :=
  match w.pendings[i]? with
  | none => w
  | some p =>
    if p.fired then w else
    let w0 := { w with pendings := w.pendings.set i { p with fired := true } }
    match p.outcome with
    | .failure err =>
      match p.blockingTask with
      | some id =>
        let w1 := { w0 with results := (id, .failed err) :: w0.results }
        processQueue w1.waiting { w1 with waiting := [] }
      | none => w0
    | .success newAccessToken expiresIn =>
      match w0.tokens with
      | none => { w0 with crashed := true }
      | some t =>
        let t2 : TokenSet :=
          { t with
              accessToken := newAccessToken
              accessTokenExpiry := p.callbackTime + expiresIn * 1000 }
        let src : WriteSource :=
          match p.blockingTask with
          | some _ => .blockingRefreshCallback
          | none => .backgroundRefreshCallback
        let w1 := { w0 with
            tokens := some t2
            stored := some (stringifyTokens (some t2))
            writes := w0.writes ++ [(src, w0.mutexLocked)] }
        match p.blockingTask with
        | some id =>
          let w2 := { w1 with results := (id, .returned (some newAccessToken)) :: w1.results }
          processQueue w2.waiting { w2 with waiting := [] }
        | none => w1

/-- One schedule turn. -/
def step (w : World) : Event → World
  | .callGetToken id now oc cbT =>
    if w.mutexLocked then { w with waiting := w.waiting ++ [.queuedGetToken id now oc cbT] }
    else
      let r := runGetTokenBody id now oc cbT { w with mutexLocked := true }
      if r.2 then r.1 else processQueue r.1.waiting { r.1 with waiting := [] }
  | .callSetTokens v =>
    if w.mutexLocked then { w with waiting := w.waiting ++ [.queuedSetTokens v] }
    else
      let r := runSetTokensBody v { w with mutexLocked := true }
      processQueue r.1.waiting { r.1 with waiting := [] }
  | .fireCallback i => fireRefreshCallback i w

/-- Execute a whole schedule. -/
def exec (events : List Event) (w : World) : World := events.foldl step w

/-- The settled result of the `getToken` call with the given id, if it has
settled. -/
def lookupResult (w : World) (id : Nat) : Option TaskResult :=
  (w.results.find? (fun p => p.1 == id)).map Prod.snd

/-- A pending refresh that a blocked `getToken` call is still awaiting. -/
def isUnfiredBlocking (p : PendingRefresh) : Bool := p.blockingTask.isSome && !p.fired

/-- Every recorded write of the token fields that did not come from a
background refresh callback happened while the mutex was locked. -/
def safeWrites (w : World) : Prop :=
  ∀ s b, (s, b) ∈ w.writes → s ≠ WriteSource.backgroundRefreshCallback → b = true

/-- Reachability invariant of the machine: writes are safe, at most one
blocked refresh is outstanding, and while one is outstanding the mutex is
held. -/
def WorldInv (w : World) : Prop :=
  safeWrites w ∧
  w.pendings.countP isUnfiredBlocking ≤ 1 ∧
  (∀ p ∈ w.pendings, isUnfiredBlocking p = true → w.mutexLocked = true)

/-! ## The entitlement fetcher (source lines 162-248)

`requestUserData`, `parseUserData`, `getLastUserData` and
`getLatestUserData` are pure apart from their collaborators, which are
captured in an environment: the awaited result of `getToken()`, the
network GET, `jwt.verify`, and the plan-code lookup. -/

/-- The decoded claims of the signed entitlement payload (source lines
162-167). -/
structure AppData where
  email : String
  subscription_id : Int
  subscription_plan_id : Int
  subscription_expiry : Int
deriving Repr, DecidableEq

/-- The subscription object built by `parseUserData` (source lines
224-228).  `plan` keeps the raw `getSubscriptionPlanCode(...)` result: the
`!` there is only a type-level cast, so the runtime value can be
undefined.  `expiry` is the millisecond value passed to `new Date(...)`;
the Date object itself is always truthy. -/
structure Subscription where
  id : Int
  plan : Option String
  expiry : Int
deriving Repr, DecidableEq

/-- The public user projection (source lines 169-176). -/
structure User where
  email : Option String := none
  subscription : Option Subscription := none
deriving Repr, DecidableEq

/-- Collaborators of the verifier: `jwt.verify` against the pinned public
key, audience and issuer (throws on any signature/claim failure), and the
plan-code lookup.

Modelled from the spec: `getSubscriptionPlanCode` lives in
`./subscriptions`, which is not part of the sources; per the spec it is a
lookup of a closed enum of known plan codes by integer id that can return
unknown, so it is kept as an arbitrary function into `Option String`. -/
structure VerifierEnv where
  verify : String → Except String AppData
  getSubscriptionPlanCode : Int → Option String

/-- JavaScript truthiness of `string | null | undefined`: null, undefined
and the empty string are falsy. -/
def jsStringFalsy : Option String → Bool
  | none => true
  | some s => s = ""

/-- Lodash `_.every` over the values of the subscription object (source
line 232): the number `id` is truthy unless zero, the plan code is truthy
unless undefined or empty, and the Date is always truthy. -/
def subscriptionEvery (s : Subscription) : Bool :=
  (!(s.id == 0)) && (match s.plan with | none => false | some c => !(c == "")) && true

/-- `parseUserData` (source lines 215-234): falsy input gives the empty
user; otherwise the payload is verified (throwing on failure) and the
subscription is exposed only when all its values are truthy. -/
def parseUserData (env : VerifierEnv) (userJwt : Option String) : Except String User :=
  if jsStringFalsy userJwt then .ok {} else
  match userJwt with
  | none => .ok {}
  | some s =>
    match env.verify s with
    | .error e => .error e
    | .ok appData =>
      let subscription : Subscription :=
        { id := appData.subscription_id
          plan := env.getSubscriptionPlanCode appData.subscription_plan_id
          expiry := appData.subscription_expiry }
      .ok { email := some appData.email
            subscription := if subscriptionEvery subscription then some subscription else none }

/-- `getLastUserData` (source lines 183-190): parse the stored signed
token, swallowing any failure into the empty (logged out) user. -/
def getLastUserData (env : VerifierEnv) (lastJwt : Option String) : User :=
  match parseUserData env lastJwt with
  | .ok u => u
  | .error _ => {}

/-- Collaborators of `requestUserData` (source lines 236-248): the awaited
result of `getToken()` (resolved with `string | undefined` or rejected),
and the authenticated GET of the entitlement endpoint, given the bearer
token, returning the response text or a network error. -/
structure FetchEnv where
  tokenResult : Except String (Option String)
  fetchResult : String → Except String String

/-- `requestUserData` (source lines 236-248): await the token; a falsy
token short-circuits to the empty payload, otherwise the endpoint is
queried. -/
def requestUserData (env : FetchEnv) : Except String String :=
  match env.tokenResult with
  | .error e => .error e
  | .ok t =>
    if jsStringFalsy t then .ok "" else
    match t with
    | none => .ok ""
    | some tok => env.fetchResult tok

/-- The try-block of `getLatestUserData` (source lines 203-207): fetch the
payload, parse it, and on success report back both the raw payload and the
decoded user. -/
def fetchAttempt (env : FetchEnv) (venv : VerifierEnv) : Except String (String × User) :=
  match requestUserData env with
  | .error e => .error e
  | .ok userJwt =>
    match parseUserData venv (some userJwt) with
    | .error e => .error e
    | .ok userData => .ok (userJwt, userData)

/-- Everything observable about one `getLatestUserData` call. -/
structure UserDataResult where
  user : User
  lastJwt : Option String
  reported : List String
  authorizationErrorEmitted : Bool
deriving Repr, DecidableEq

/-- `getLatestUserData` (source lines 200-213): capture the last-known
user first; on success persist the raw payload and return the fresh user;
on any failure report the error, emit `authorization_error` on the event
bus, and return the captured last-known user.  The function is total: no
failure reaches the caller. -/
def getLatestUserData (env : FetchEnv) (venv : VerifierEnv) (lastJwt0 : Option String) :
    UserDataResult :=
  let lastUserData := getLastUserData venv lastJwt0
  match fetchAttempt env venv with
  | .ok (userJwt, userData) =>
      { user := userData
        lastJwt := some userJwt
        reported := []
        authorizationErrorEmitted := false }
  | .error e =>
      { user := lastUserData
        lastJwt := lastJwt0
        reported := [e]
        authorizationErrorEmitted := true }

/-! ## Characterizations of the getToken body -/

/-- With at most five seconds to expiry the body starts a refresh and
suspends awaiting it. -/
theorem getTokenBody_blocking (t : TokenSet) (now : Int)
    (h : t.accessTokenExpiry - now ≤ 1000 * 5) :
    getTokenBody (some t) now = BodyAction.awaitRefresh := by
  simp only [getTokenBody]
  rw [if_neg (by omega), if_pos (by omega)]

/-- Between the two thresholds the body answers with the cached token and
starts a background refresh. -/
theorem getTokenBody_background (t : TokenSet) (now : Int)
    (h1 : 1000 * 5 < t.accessTokenExpiry - now)
    (h2 : t.accessTokenExpiry - now < 1000 * 60 * 10) :
    getTokenBody (some t) now = BodyAction.useCached t.accessToken true := by
  simp only [getTokenBody]
  rw [if_pos (by omega), decide_eq_true h2]

/-- C10: in `getToken()`, whenever the blocking branch is taken
(`timeUntilExpiry <= 5` seconds), a refresh promise was necessarily created
earlier in the same call, because `timeUntilExpiry <= 5s` implies
`timeUntilExpiry < 10min`; hence the non-null assertion `refreshPromise!`
never stands on a null value, for any token state and any current time. -/
theorem getToken_refreshPromise_never_null (tokens : Option TokenSet) (now : Int) :
    getTokenBody tokens now ≠ BodyAction.nullAssertHit := by
  match tokens with
  | none => simp [getTokenBody]
  | some t =>
    simp only [getTokenBody]
    split
    · simp
    · split
      · simp
      · intro _
        omega

/-- C1: for every token state with `accessTokenExpiry - now <= 5` seconds,
`getToken()` does not settle before the refresh callback runs (it awaits
the refresh), exactly one refresh is started, and once the callback runs
the call returns the newly refreshed access token, or rejects with the
refresh error (RefreshError) when the refresh fails.  Both thresholds hold
simultaneously here (expiry within 5s implies within 10min) and the
blocking branch wins: the result is the refresh outcome, not the cached
token. -/
theorem getToken_blocking_awaits_refresh (t : TokenSet) (now cbTime : Int) (oc : RefreshOutcome)
    (h : t.accessTokenExpiry - now ≤ 1000 * 5) :
    lookupResult (exec [.callGetToken 0 now oc cbTime] (initWorld (some t))) 0 = none ∧
    (exec [.callGetToken 0 now oc cbTime] (initWorld (some t))).refreshStarts = 1 ∧
    lookupResult (exec [.callGetToken 0 now oc cbTime, .fireCallback 0] (initWorld (some t))) 0 =
      some (match oc with
        | .success newTok _ => .returned (some newTok)
        | .failure err => .failed err) := by
  have hb := getTokenBody_blocking t now h
  refine ⟨?_, ?_, ?_⟩ <;>
    cases oc <;>
      simp [exec, step, initWorld, runGetTokenBody, hb, fireRefreshCallback, processQueue,
        lookupResult, runQueuedAction, runSetTokensBody]

/-- C1 witness: a concrete token state four seconds from expiry. -/
theorem getToken_blocking_awaits_refresh_witness :
    ((⟨"R", "A", 4000⟩ : TokenSet).accessTokenExpiry - 0 ≤ 1000 * 5) ∧
    lookupResult (exec [.callGetToken 0 0 (.success "B" 3600) 10, .fireCallback 0]
      (initWorld (some ⟨"R", "A", 4000⟩))) 0 = some (.returned (some "B")) :=
  ⟨by decide,
    (getToken_blocking_awaits_refresh ⟨"R", "A", 4000⟩ 0 10 (.success "B" 3600) (by decide)).2.2⟩

/-- C2: for every token state with `5s < accessTokenExpiry - now < 10min`,
a single `getToken()` call resolves with the currently cached access token,
triggers exactly one refresh call, and releases the mutex without blocking
on that refresh. -/
theorem getToken_background_cached_one_refresh (t : TokenSet) (now cbTime : Int)
    (oc : RefreshOutcome)
    (h1 : 1000 * 5 < t.accessTokenExpiry - now)
    (h2 : t.accessTokenExpiry - now < 1000 * 60 * 10) :
    lookupResult (exec [.callGetToken 0 now oc cbTime] (initWorld (some t))) 0 =
      some (.returned (some t.accessToken)) ∧
    (exec [.callGetToken 0 now oc cbTime] (initWorld (some t))).refreshStarts = 1 ∧
    (exec [.callGetToken 0 now oc cbTime] (initWorld (some t))).mutexLocked = false := by
  have hb := getTokenBody_background t now h1 h2
  refine ⟨?_, ?_, ?_⟩ <;>
    simp [exec, step, initWorld, runGetTokenBody, hb, processQueue, lookupResult]

/-- C2 witness: a concrete token state five minutes from expiry. -/
theorem getToken_background_cached_one_refresh_witness :
    (1000 * 5 < (⟨"R", "A", 300000⟩ : TokenSet).accessTokenExpiry - 0) ∧
    ((⟨"R", "A", 300000⟩ : TokenSet).accessTokenExpiry - 0 < 1000 * 60 * 10) ∧
    lookupResult (exec [.callGetToken 0 0 (.success "B" 3600) 10] (initWorld (some ⟨"R", "A", 300000⟩))) 0 =
      some (.returned (some "A")) :=
  ⟨by decide, by decide,
    (getToken_background_cached_one_refresh ⟨"R", "A", 300000⟩ 0 10 (.success "B" 3600)
      (by decide) (by decide)).1⟩

/-- C6 counterexample: the claim says a failed background refresh is
swallowed after being logged/reported.  In the code nothing catches the
background refresh promise and `reportError` is never called from the
token code: at this concrete input the failure leaves no report behind
(the rejection is simply unhandled), even though the `getToken()` caller
did already receive the cached token.  The claimed reporting does not
happen. -/
theorem background_refresh_failure_not_reported_cex :
    lookupResult (exec [.callGetToken 0 0 (.failure "refresh failed") 10, .fireCallback 0]
      (initWorld (some ⟨"R", "A", 300000⟩))) 0 = some (.returned (some "A")) ∧
    (exec [.callGetToken 0 0 (.failure "refresh failed") 10, .fireCallback 0]
      (initWorld (some ⟨"R", "A", 300000⟩))).reports = [] := by
  constructor <;> decide

/-- C6 amended: when a background refresh triggered by `getToken()` fails,
the failure is swallowed silently (an unhandled promise rejection, with no
report): the refresh error does not surface to the `getToken()` caller,
who already received the currently valid cached token; the token state is
untouched and nothing crashes. -/
theorem background_refresh_failure_swallowed (t : TokenSet) (now cbTime : Int) (e : String)
    (h1 : 1000 * 5 < t.accessTokenExpiry - now)
    (h2 : t.accessTokenExpiry - now < 1000 * 60 * 10) :
    lookupResult (exec [.callGetToken 0 now (.failure e) cbTime, .fireCallback 0]
      (initWorld (some t))) 0 = some (.returned (some t.accessToken)) ∧
    (exec [.callGetToken 0 now (.failure e) cbTime, .fireCallback 0]
      (initWorld (some t))).reports = [] ∧
    (exec [.callGetToken 0 now (.failure e) cbTime, .fireCallback 0]
      (initWorld (some t))).crashed = false ∧
    (exec [.callGetToken 0 now (.failure e) cbTime, .fireCallback 0]
      (initWorld (some t))).tokens = some t := by
  have hb := getTokenBody_background t now h1 h2
  refine ⟨?_, ?_, ?_, ?_⟩ <;>
    simp [exec, step, initWorld, runGetTokenBody, hb, fireRefreshCallback, processQueue,
      lookupResult]

/-- C6 amended witness: a concrete background refresh failure. -/
theorem background_refresh_failure_swallowed_witness :
    (1000 * 5 < (⟨"R", "A", 300000⟩ : TokenSet).accessTokenExpiry - 0) ∧
    lookupResult (exec [.callGetToken 0 0 (.failure "boom") 10, .fireCallback 0]
      (initWorld (some ⟨"R", "A", 300000⟩))) 0 = some (.returned (some "A")) :=
  ⟨by decide,
    (background_refresh_failure_swallowed ⟨"R", "A", 300000⟩ 0 10 "boom"
      (by decide) (by decide)).1⟩

/-- C8: a token state within 5 seconds of expiry makes `getToken()` block
awaiting its refresh while holding the mutex; a `logOut()` arriving before
the refresh resolves queues its `setTokens(null)` behind that mutex, so
when the refresh callback later resolves (either way), the queued logout
runs afterward and the final token state and its persisted mirror are
null: the stale refresh result never resurrects the logged-out session,
and nothing crashes, because under the mutex the refresher never observes
cleared tokens. -/
theorem logout_during_blocking_refresh_stays_logged_out (t : TokenSet) (now cbTime : Int)
    (oc : RefreshOutcome) (h : t.accessTokenExpiry - now ≤ 1000 * 5) :
    (exec [.callGetToken 0 now oc cbTime, .callSetTokens none, .fireCallback 0]
      (initWorld (some t))).tokens = none ∧
    (exec [.callGetToken 0 now oc cbTime, .callSetTokens none, .fireCallback 0]
      (initWorld (some t))).stored = some (stringifyTokens none) ∧
    (exec [.callGetToken 0 now oc cbTime, .callSetTokens none, .fireCallback 0]
      (initWorld (some t))).crashed = false ∧
    (exec [.callGetToken 0 now oc cbTime, .callSetTokens none, .fireCallback 0]
      (initWorld (some t))).mutexLocked = false := by
  have hb := getTokenBody_blocking t now h
  refine ⟨?_, ?_, ?_, ?_⟩ <;>
    cases oc <;>
      simp [exec, step, initWorld, runGetTokenBody, hb, fireRefreshCallback, processQueue,
        runQueuedAction, runSetTokensBody]

/-- C8 witness: a concrete logout racing a concrete blocking refresh. -/
theorem logout_during_blocking_refresh_stays_logged_out_witness :
    ((⟨"R", "A", 4000⟩ : TokenSet).accessTokenExpiry - 0 ≤ 1000 * 5) ∧
    (exec [.callGetToken 0 0 (.success "B" 3600) 10, .callSetTokens none, .fireCallback 0]
      (initWorld (some ⟨"R", "A", 4000⟩))).tokens = none :=
  ⟨by decide,
    (logout_during_blocking_refresh_stays_logged_out ⟨"R", "A", 4000⟩ 0 10 (.success "B" 3600)
      (by decide)).1⟩

/-- C3: `getLatestUserData()` never rejects toward its caller (it is total
by construction, every failure of the token fetch, the authenticated GET
or the verification being routed through the catch): on any such failure
it reports the error, emits `authorization_error` on the event bus, leaves
the stored payload untouched, and returns the last-known user captured via
`getLastUserData` before the fetch was attempted. -/
theorem getLatestUserData_failure_falls_back (env : FetchEnv) (venv : VerifierEnv)
    (lastJwt0 : Option String) (e : String)
    (h : fetchAttempt env venv = Except.error e) :
    getLatestUserData env venv lastJwt0 =
      { user := getLastUserData venv lastJwt0
        lastJwt := lastJwt0
        reported := [e]
        authorizationErrorEmitted := true } := by
  simp [getLatestUserData, h]

/-- C3 witness: a concrete network failure of the token fetch. -/
theorem getLatestUserData_failure_falls_back_witness :
    fetchAttempt ⟨Except.error "network error", fun _ => Except.error "down"⟩
      ⟨fun _ => Except.error "bad signature", fun _ => none⟩ = Except.error "network error" ∧
    getLatestUserData ⟨Except.error "network error", fun _ => Except.error "down"⟩
      ⟨fun _ => Except.error "bad signature", fun _ => none⟩ (some "OLDJWT") =
      { user := {}
        lastJwt := some "OLDJWT"
        reported := ["network error"]
        authorizationErrorEmitted := true } :=
  ⟨rfl, getLatestUserData_failure_falls_back _ _ _ _ rfl⟩

/-- C5 counterexample: the claim says the stored `last_jwt` is left
unchanged when the user is logged out with no access token.  In the code a
logged-out `getToken()` resolves undefined, `requestUserData` then returns
the empty string, the empty string parses (falsy short-circuit) to the
empty user, and `getLatestUserData` reaches its `setItem` line: the old
stored value is overwritten with the empty string. -/
theorem lastJwt_overwritten_when_logged_out_cex :
    (getLatestUserData ⟨Except.ok none, fun _ => Except.error "unused"⟩
      ⟨fun _ => Except.error "unused", fun _ => none⟩ (some "OLDJWT")).lastJwt = some "" ∧
    some "" ≠ some "OLDJWT" :=
  ⟨rfl, by decide⟩

/-- C5 amended: the persisted raw last-known entitlement token is
overwritten by `getLatestUserData()` exactly when the fetch attempt
succeeds, with the fetched payload: after a verified fetch it holds the
fresh signed token, and in the logged-out case (no access token) it is
overwritten with the empty string, whose parse is the empty user; on every
failing outcome (token fetch error, network error, signature or claim
verification failure) the stored value is left unchanged. -/
theorem lastJwt_written_iff_attempt_succeeds (env : FetchEnv) (venv : VerifierEnv)
    (lastJwt0 : Option String) :
    (getLatestUserData env venv lastJwt0).lastJwt =
      match fetchAttempt env venv with
      | .ok (userJwt, _) => some userJwt
      | .error _ => lastJwt0 := by
  cases h : fetchAttempt env venv with
  | ok p =>
    cases p
    simp [getLatestUserData, h]
  | error e => simp [getLatestUserData, h]

/-- Characterization of `parseUserData` on a non-empty payload accepted by
the verifier: the email is exposed and the subscription candidate is
exposed exactly when all its values are truthy. -/
theorem parseUserData_verified (venv : VerifierEnv) (s : String) (d : AppData)
    (hs : s ≠ "") (hv : venv.verify s = .ok d) :
    parseUserData venv (some s) = .ok
      { email := some d.email
        subscription :=
          if subscriptionEvery
              ⟨d.subscription_id, venv.getSubscriptionPlanCode d.subscription_plan_id,
                d.subscription_expiry⟩ then
            some ⟨d.subscription_id, venv.getSubscriptionPlanCode d.subscription_plan_id,
              d.subscription_expiry⟩
          else none } := by
  simp [parseUserData, jsStringFalsy, hs, hv]

/-- A subscription candidate guarded by the truthiness check is only ever
exposed when the check passed. -/
theorem subscription_exposed_truthy (cand sub : Subscription)
    (h : (if subscriptionEvery cand then some cand else none) = some sub) :
    subscriptionEvery sub = true := by
  by_cases hev : subscriptionEvery cand = true
  · rw [if_pos hev] at h
    injection h with h
    rw [← h]
    exact hev
  · rw [if_neg hev] at h
    exact absurd h (by simp)

/-- A subscription that passes the truthiness check has a non-zero id and
a resolved, non-empty plan code. -/
theorem subscriptionEvery_shape (sub : Subscription) (h : subscriptionEvery sub = true) :
    sub.id ≠ 0 ∧ ∃ c, sub.plan = some c ∧ c ≠ "" := by
  simp only [subscriptionEvery, Bool.and_true, Bool.and_eq_true] at h
  obtain ⟨hid, hplan⟩ := h
  constructor
  · intro h0
    rw [h0] at hid
    simp at hid
  · cases hc : sub.plan with
    | none =>
      rw [hc] at hplan
      simp at hplan
    | some c =>
      rw [hc] at hplan
      refine ⟨c, rfl, fun hce => ?_⟩
      rw [hce] at hplan
      simp at hplan

/-- C7: for every verified non-empty entitlement payload whose
`subscription_plan_id` is not a recognized plan code, `parseUserData`
yields a user whose subscription is absent but whose email is present;
and more generally, whenever the returned subscription is present, all
three of its values are populated: the id is truthy (non-zero), the plan
code resolved to a truthy (non-empty) code, and the expiry Date is there
by construction. -/
theorem parseUserData_subscription_shape (venv : VerifierEnv) (s : String) (d : AppData)
    (hs : s ≠ "") (hv : venv.verify s = .ok d) :
    (venv.getSubscriptionPlanCode d.subscription_plan_id = none →
      parseUserData venv (some s) = .ok { email := some d.email, subscription := none }) ∧
    (∀ u sub, parseUserData venv (some s) = .ok u → u.subscription = some sub →
      sub.id ≠ 0 ∧ ∃ c, sub.plan = some c ∧ c ≠ "") := by
  have hp := parseUserData_verified venv s d hs hv
  constructor
  · intro hplan
    rw [hp, hplan]
    simp [subscriptionEvery]
  · intro u sub h1 h2
    rw [hp] at h1
    injection h1 with h1
    rw [← h1] at h2
    exact subscriptionEvery_shape sub (subscription_exposed_truthy _ sub h2)

/-- C7 witness: a concrete verified payload with an unrecognized plan id. -/
theorem parseUserData_subscription_shape_witness :
    ("JWT" ≠ "") ∧
    parseUserData ⟨fun _ => Except.ok ⟨"a@b.c", 1, 99, 1234⟩, fun _ => none⟩ (some "JWT") =
      .ok { email := some "a@b.c", subscription := none } :=
  ⟨by decide,
    (parseUserData_subscription_shape ⟨fun _ => Except.ok ⟨"a@b.c", 1, 99, 1234⟩, fun _ => none⟩
      "JWT" ⟨"a@b.c", 1, 99, 1234⟩ (by decide) rfl).1 rfl⟩

/-! ## Round-trip of the persisted token text -/

/-- Consuming an expected literal prefix succeeds and leaves the rest. -/
theorem expectChars_append (es rest : List Char) :
    expectChars es (es ++ rest) = some rest := by
  induction es with
  | nil => rfl
  | cons e es ih =>
    rw [List.cons_append]
    show (if e = e then expectChars es (es ++ rest) else none) = some rest
    rw [if_pos rfl, ih]

/-- The string-body parser on a closing quote. -/
theorem parseStringBody_quote (rest : List Char) :
    parseStringBody ('"' :: rest) = some ([], rest) := by
  cases rest <;> simp [parseStringBody]

/-- The string-body parser on an escape sequence. -/
theorem parseStringBody_escaped (d : Char) (rest : List Char) :
    parseStringBody ('\\' :: d :: rest) =
      (parseStringBody rest).map (fun p => (d :: p.1, p.2)) := by
  simp [parseStringBody]

/-- The string-body parser on an ordinary character. -/
theorem parseStringBody_other (c : Char) (rest : List Char)
    (h1 : ¬(c = '"')) (h2 : ¬(c = '\\')) :
    parseStringBody (c :: rest) =
      (parseStringBody rest).map (fun p => (c :: p.1, p.2)) := by
  cases rest <;> simp [parseStringBody, h1, h2]

/-- The string-body parser undoes the escaper. -/
theorem parseStringBody_escape (l rest : List Char) :
    parseStringBody (escapeJsonString l ++ '"' :: rest) = some (l, rest) := by
  induction l with
  | nil =>
    rw [show escapeJsonString [] = [] from rfl, List.nil_append, parseStringBody_quote]
  | cons c cs ih =>
    rw [show escapeJsonString (c :: cs) = escapeJsonChar c ++ escapeJsonString cs from rfl]
    by_cases hc : c = '"' ∨ c = '\\'
    · rw [show escapeJsonChar c = ['\\', c] from by rw [escapeJsonChar, if_pos hc]]
      simp only [List.append_assoc, List.cons_append, List.nil_append]
      rw [parseStringBody_escaped, ih]
      rfl
    · rw [show escapeJsonChar c = [c] from by rw [escapeJsonChar, if_neg hc]]
      push_neg at hc
      simp only [List.append_assoc, List.cons_append, List.nil_append]
      rw [parseStringBody_other c _ hc.1 hc.2, ih]
      rfl

/-- The string-literal parser undoes the renderer. -/
theorem parseStringLit_render (s : String) (rest : List Char) :
    parseStringLit (renderString s ++ rest) = some (s, rest) := by
  rw [show renderString s ++ rest = '"' :: (escapeJsonString s.data ++ '"' :: rest) from by
    simp [renderString, List.append_assoc]]
  show (parseStringBody (escapeJsonString s.data ++ '"' :: rest)).map
      (fun p => (String.mk p.1, p.2)) = some (s, rest)
  rw [parseStringBody_escape]
  rfl

/-- Digits render to digit characters. -/
theorem digitToChar_isDigit (d : Nat) (hd : d < 10) : isDigitChar (digitToChar d) = true := by
  interval_cases d <;> decide

/-- Reading back a rendered digit gives the digit. -/
theorem charToDigit_digitToChar (d : Nat) (hd : d < 10) : charToDigit (digitToChar d) = d := by
  interval_cases d <;> decide

/-- A digit character is not the minus sign. -/
theorem isDigitChar_ne_dash (c : Char) (h : isDigitChar c = true) : ¬(c = '-') := by
  intro he
  rw [he] at h
  exact absurd h (by decide)

/-- The fuel-driven renderer agrees with the digit expansion. -/
theorem renderNatAux_eq (fuel n : Nat) (h : n < fuel) :
    renderNatAux fuel n = ((Nat.digits 10 n).map digitToChar).reverse := by
  induction fuel generalizing n with
  | zero => omega
  | succ fuel ih =>
    by_cases h0 : n = 0
    · subst h0
      simp [renderNatAux]
    · simp only [renderNatAux, if_neg h0]
      rw [ih (n / 10) (by omega),
        Nat.digits_def' (by norm_num : (1 : ℕ) < 10) (Nat.pos_of_ne_zero h0)]
      simp [List.reverse_cons]

/-- The renderer in terms of the digit expansion. -/
theorem renderNat_eq_digits (n : Nat) :
    renderNat n = if n = 0 then ['0'] else ((Nat.digits 10 n).map digitToChar).reverse := by
  unfold renderNat
  by_cases h : n = 0
  · simp [h]
  · rw [if_neg h, if_neg h, renderNatAux_eq (n + 1) n (by omega)]

/-- Every character of a rendered natural number is a digit. -/
theorem renderNat_all_digits (n : Nat) : ∀ c ∈ renderNat n, isDigitChar c = true := by
  rw [renderNat_eq_digits]
  by_cases h0 : n = 0
  · subst h0
    intro c hc
    rw [if_pos rfl, List.mem_singleton] at hc
    subst hc
    decide
  · rw [if_neg h0]
    intro c hc
    rw [List.mem_reverse, List.mem_map] at hc
    obtain ⟨d, hd, rfl⟩ := hc
    exact digitToChar_isDigit d (Nat.digits_lt_base (by norm_num) hd)

/-- Unfolding equation of the integer parser on a non-empty input. -/
theorem parseIntNum_cons (c : Char) (cs : List Char) :
    parseIntNum (c :: cs) =
      if c = '-' then (parseNatNum cs).map (fun p => (-(p.1 : Int), p.2))
      else (parseNatNum (c :: cs)).map (fun p => ((p.1 : Int), p.2)) := by
  rfl

/-- A rendered natural number is never empty. -/
theorem renderNat_ne_nil (n : Nat) : renderNat n ≠ [] := by
  rw [renderNat_eq_digits]
  by_cases h0 : n = 0
  · simp [h0]
  · rw [if_neg h0]
    simp only [ne_eq, List.reverse_eq_nil_iff, List.map_eq_nil_iff]
    exact Nat.digits_ne_nil_iff_ne_zero.mpr h0

/-- The digit accumulator consumes exactly the mapped digits. -/
theorem parseNatAux_digits (ds : List Nat) (acc : Nat) (rest : List Char)
    (hd : ∀ d ∈ ds, d < 10) (hr : digitLeading rest = false) :
    parseNatAux acc (ds.map digitToChar ++ rest) =
      (ds.foldl (fun a d => 10 * a + d) acc, rest) := by
  induction ds generalizing acc with
  | nil =>
    simp only [List.map_nil, List.nil_append, List.foldl_nil]
    cases rest with
    | nil => rfl
    | cons c cs =>
      simp only [digitLeading] at hr
      simp [parseNatAux, hr]
  | cons d ds ih =>
    have hd10 : d < 10 := hd d (List.mem_cons_self d ds)
    simp only [List.map_cons, List.cons_append, parseNatAux, digitToChar_isDigit d hd10,
      if_true, charToDigit_digitToChar d hd10, List.foldl_cons]
    exact ih (10 * acc + d) (fun x hx => hd x (List.mem_cons_of_mem d hx))

/-- Folding most-significant-first digits recovers the positional value. -/
theorem foldl_reverse_ofDigits (ds : List Nat) (acc : Nat) :
    (ds.reverse).foldl (fun a d => 10 * a + d) acc =
      acc * 10 ^ ds.length + Nat.ofDigits 10 ds := by
  induction ds generalizing acc with
  | nil => simp
  | cons d ds ih =>
    simp only [List.reverse_cons, List.foldl_append, List.foldl_cons, List.foldl_nil, ih,
      List.length_cons, Nat.ofDigits_cons]
    ring

/-- The number parser undoes the natural-number renderer. -/
theorem parseNatNum_render (n : Nat) (rest : List Char) (hr : digitLeading rest = false) :
    parseNatNum (renderNat n ++ rest) = some (n, rest) := by
  rw [renderNat_eq_digits]
  by_cases h0 : n = 0
  · subst h0
    rw [if_pos rfl]
    have h := parseNatAux_digits [] 0 rest (by simp) hr
    simp only [List.map_nil, List.nil_append, List.foldl_nil] at h
    simp only [List.singleton_append, parseNatNum, (by decide : isDigitChar '0' = true), if_true,
      (by decide : charToDigit '0' = 0), h]
  · rw [if_neg h0]
    have hdig : ∀ d ∈ Nat.digits 10 n, d < 10 :=
      fun d hd => Nat.digits_lt_base (by norm_num) hd
    cases hM : (Nat.digits 10 n).reverse with
    | nil => exact absurd (List.reverse_eq_nil_iff.mp hM) (Nat.digits_ne_nil_iff_ne_zero.mpr h0)
    | cons d0 M =>
      have hmem : ∀ d ∈ d0 :: M, d < 10 := by
        rw [← hM]
        intro d hd
        exact hdig d (List.mem_reverse.mp hd)
      have hd0 : d0 < 10 := hmem d0 (List.mem_cons_self _ _)
      rw [← List.map_reverse, hM]
      simp only [List.map_cons, List.cons_append, parseNatNum, digitToChar_isDigit d0 hd0,
        if_true, charToDigit_digitToChar d0 hd0]
      rw [parseNatAux_digits M d0 rest (fun d hd => hmem d (List.mem_cons_of_mem _ hd)) hr]
      have hfold : (d0 :: M).foldl (fun a d => 10 * a + d) 0 = n := by
        rw [← hM, foldl_reverse_ofDigits, Nat.ofDigits_digits]
        simp
      simp only [List.foldl_cons, Nat.mul_zero, Nat.zero_add] at hfold
      rw [hfold]

/-- The integer parser undoes the integer renderer. -/
theorem parseIntNum_render (i : Int) (rest : List Char) (hr : digitLeading rest = false) :
    parseIntNum (renderInt i ++ rest) = some (i, rest) := by
  unfold renderInt
  by_cases hneg : i < 0
  · rw [if_pos hneg, List.cons_append, parseIntNum_cons, if_pos rfl,
      parseNatNum_render i.natAbs rest hr, Option.map_some']
    have hi : -((i.natAbs : Nat) : Int) = i := by omega
    rw [hi]
  · rw [if_neg hneg]
    have hne := renderNat_ne_nil i.natAbs
    have hall := renderNat_all_digits i.natAbs
    cases hR : renderNat i.natAbs with
    | nil => exact absurd hR hne
    | cons c cs =>
      have hc : isDigitChar c = true := hall c (by rw [hR]; exact List.mem_cons_self c cs)
      rw [List.cons_append, parseIntNum_cons, if_neg (isDigitChar_ne_dash c hc),
        ← List.cons_append, ← hR, parseNatNum_render i.natAbs rest hr, Option.map_some']
      have hi : ((i.natAbs : Nat) : Int) = i := by omega
      rw [hi]

/-- The serialized form of a live token state is not the null literal. -/
theorem stringifyTokens_some_ne_null (t : TokenSet) :
    stringifyTokens (some t) ≠ ['n', 'u', 'l', 'l'] := by
  simp only [stringifyTokens, List.cons_append]
  intro h
  injection h with h1 _
  exact absurd h1 (by decide)

/-- The closing brace is not a digit. -/
theorem digitLeading_brace : digitLeading ['\x7d'] = false := by decide

/-- The parser undoes the serializer on every token state. -/
theorem parseTokensJson_stringify (ot : Option TokenSet) :
    parseTokensJson (stringifyTokens ot) = some ot := by
  cases ot with
  | none => rfl
  | some t =>
    have hshape : stringifyTokens (some t) =
        ('\x7b' :: memberKey "refreshToken") ++ (renderString t.refreshToken ++
        ((',' :: memberKey "accessToken") ++ (renderString t.accessToken ++
        ((',' :: memberKey "accessTokenExpiry") ++ (renderInt t.accessTokenExpiry ++
        ['\x7d']))))) := by
      simp only [stringifyTokens, List.append_assoc]
    rw [parseTokensJson.eq_def, if_neg (stringifyTokens_some_ne_null t), hshape]
    simp only [expectChars_append, Option.some_bind, parseStringLit_render,
      parseIntNum_render, digitLeading_brace]
    rfl

/-- C9: for every TokenSet `t` (and any state the module started in),
calling `setTokens(t)` and then re-reading the persisted value from
durable storage at process start (the `JSON.parse` of the stored string)
yields a TokenSet equal to `t`: the serialize-then-deserialize round-trip
is the identity. -/
theorem setTokens_restart_roundtrip (t : TokenSet) (tokens0 : Option TokenSet) :
    loadTokens ((exec [.callSetTokens (some t)] (initWorld tokens0)).stored) = some (some t) := by
  have hst : (exec [.callSetTokens (some t)] (initWorld tokens0)).stored =
      some (stringifyTokens (some t)) := by
    simp [exec, step, initWorld, runSetTokensBody, processQueue]
  rw [hst]
  show parseTokensJson (stringifyTokens (some t)) = some (some t)
  exact parseTokensJson_stringify (some t)

/-! ## The mutex write-discipline invariant -/

/-- A position holding a pending entry makes the count of matching entries
positive. -/
theorem countP_pos_of_getElem (l : List PendingRefresh) (i : Nat) (p : PendingRefresh)
    (hget : l[i]? = some p) (hub : isUnfiredBlocking p = true) :
    1 ≤ l.countP isUnfiredBlocking := by
  have hmem : p ∈ l := List.getElem?_mem hget
  have h2 : 0 < l.countP isUnfiredBlocking := List.countP_pos_iff.mpr ⟨p, hmem, hub⟩
  omega

/-- Firing a pending entry does not increase the count of unfired blocked
refreshes. -/
theorem countP_set_fired_le (l : List PendingRefresh) (i : Nat) (p : PendingRefresh)
    (hget : l[i]? = some p) :
    (l.set i { p with fired := true }).countP isUnfiredBlocking ≤
      l.countP isUnfiredBlocking := by
  induction l generalizing i with
  | nil => simp
  | cons x xs ih =>
    cases i with
    | zero =>
      have hx : x = p := by simpa using hget
      subst hx
      have hfired : isUnfiredBlocking { x with fired := true } = false := by
        simp [isUnfiredBlocking]
      simp only [List.set_cons_zero, List.countP_cons, hfired, Bool.false_eq_true, if_false]
      split <;> omega
    | succ j =>
      simp only [List.set_cons_succ, List.countP_cons]
      exact Nat.add_le_add_right (ih j (by simpa using hget)) _

/-- After firing the unique outstanding blocked refresh, no unfired
blocked refresh remains. -/
theorem set_fired_no_unfired (l : List PendingRefresh) (i : Nat) (p : PendingRefresh)
    (hget : l[i]? = some p) (hub : isUnfiredBlocking p = true)
    (hcount : l.countP isUnfiredBlocking ≤ 1) :
    ∀ q ∈ l.set i { p with fired := true }, isUnfiredBlocking q = false := by
  induction l generalizing i with
  | nil => simp at hget
  | cons x xs ih =>
    cases i with
    | zero =>
      have hx : x = p := by simpa using hget
      subst hx
      intro q hq
      rw [List.set_cons_zero] at hq
      rcases List.mem_cons.mp hq with rfl | hq2
      · simp [isUnfiredBlocking]
      · have h1 : xs.countP isUnfiredBlocking = 0 := by
          rw [List.countP_cons, hub, if_pos rfl] at hcount
          omega
        have h2 := List.countP_eq_zero.mp h1 q hq2
        simpa using h2
    | succ j =>
      intro q hq
      rw [List.set_cons_succ] at hq
      have hgx : xs[j]? = some p := by simpa using hget
      rcases List.mem_cons.mp hq with rfl | hq2
      · by_contra hubx
        have hubx' : isUnfiredBlocking q = true := by
          cases hx2 : isUnfiredBlocking q
          · exact absurd hx2 hubx
          · rfl
        have h1 := countP_pos_of_getElem xs j p hgx hub
        rw [List.countP_cons, hubx', if_pos rfl] at hcount
        omega
      · have hcx : xs.countP isUnfiredBlocking ≤ 1 := by
          rw [List.countP_cons] at hcount
          split at hcount <;> omega
        exact ih j hgx hcx q hq2

/-- Draining the mutex queue, entered with the mutex held and no blocked
refresh outstanding, re-establishes the invariant. -/
theorem processQueue_inv (q : List QueuedAction) (w : World)
    (hw : safeWrites w) (hm : w.mutexLocked = true)
    (hp : ∀ p ∈ w.pendings, isUnfiredBlocking p = false) :
    WorldInv (processQueue q w) := by
  induction q generalizing w with
  | nil =>
    simp only [processQueue]
    refine ⟨hw, ?_, ?_⟩
    · have h0 : w.pendings.countP isUnfiredBlocking = 0 :=
        List.countP_eq_zero.mpr (fun a ha => by simp [hp a ha])
      show w.pendings.countP isUnfiredBlocking ≤ 1
      omega
    · intro p hpm hub
      rw [hp p hpm] at hub
      exact absurd hub (by simp)
  | cons a rest ih =>
    simp only [processQueue]
    cases a with
    | queuedSetTokens v =>
      simp only [runQueuedAction, runSetTokensBody]
      apply ih
      · intro s b hmem hs
        rcases List.mem_append.mp hmem with h2 | h2
        · exact hw s b h2 hs
        · rw [List.mem_singleton, Prod.mk.injEq] at h2
          rw [h2.2]
          exact hm
      · exact hm
      · exact hp
    | queuedGetToken id now oc cbT =>
      simp only [runQueuedAction]
      cases hb : getTokenBody w.tokens now with
      | noTokens =>
        simp only [runGetTokenBody, hb]
        exact ih _ hw hm hp
      | useCached tok started =>
        cases started with
        | false =>
          simp only [runGetTokenBody, hb, Bool.false_eq_true, if_false]
          exact ih _ hw hm hp
        | true =>
          simp only [runGetTokenBody, hb, if_true]
          apply ih
          · exact hw
          · exact hm
          · intro p hpm
            rcases List.mem_append.mp hpm with h2 | h2
            · exact hp p h2
            · rw [List.mem_singleton] at h2
              subst h2
              simp [isUnfiredBlocking]
      | awaitRefresh =>
        simp only [runGetTokenBody, hb, if_true]
        refine ⟨hw, ?_, ?_⟩
        · show (w.pendings ++
              [({ outcome := oc, callbackTime := cbT, blockingTask := some id,
                  fired := false } : PendingRefresh)]).countP isUnfiredBlocking ≤ 1
          rw [List.countP_append]
          have h0 : w.pendings.countP isUnfiredBlocking = 0 :=
            List.countP_eq_zero.mpr (fun a ha => by simp [hp a ha])
          rw [h0]
          simp [List.countP_cons, isUnfiredBlocking]
        · intro p hpm hub
          exact hm
      | nullAssertHit =>
        simp only [runGetTokenBody, hb]
        exact ih _ hw hm hp

/-- Each machine turn preserves the invariant. -/
theorem step_inv (w : World) (e : Event) (h : WorldInv w) : WorldInv (step w e) := by
  obtain ⟨hw, hcount, hmux⟩ := h
  cases e with
  | callGetToken id now oc cbT =>
    by_cases hm : w.mutexLocked = true
    · simp only [step, if_pos hm]
      exact ⟨hw, hcount, hmux⟩
    · have hp : ∀ p ∈ w.pendings, isUnfiredBlocking p = false := by
        intro p hpm
        cases hx : isUnfiredBlocking p
        · rfl
        · exact absurd (hmux p hpm hx) hm
      cases hb : getTokenBody w.tokens now with
      | noTokens =>
        simp only [step, if_neg hm, runGetTokenBody, hb]
        exact processQueue_inv _ _ hw rfl hp
      | useCached tok started =>
        cases started with
        | false =>
          simp only [step, if_neg hm, runGetTokenBody, hb, Bool.false_eq_true, if_false]
          exact processQueue_inv _ _ hw rfl hp
        | true =>
          simp only [step, if_neg hm, runGetTokenBody, hb, if_true]
          apply processQueue_inv
          · exact hw
          · rfl
          · intro p hpm
            rcases List.mem_append.mp hpm with h2 | h2
            · exact hp p h2
            · rw [List.mem_singleton] at h2
              subst h2
              simp [isUnfiredBlocking]
      | awaitRefresh =>
        simp only [step, if_neg hm, runGetTokenBody, hb, if_true]
        refine ⟨hw, ?_, ?_⟩
        · show (w.pendings ++
              [({ outcome := oc, callbackTime := cbT, blockingTask := some id,
                  fired := false } : PendingRefresh)]).countP isUnfiredBlocking ≤ 1
          rw [List.countP_append]
          have h0 : w.pendings.countP isUnfiredBlocking = 0 :=
            List.countP_eq_zero.mpr (fun a ha => by simp [hp a ha])
          rw [h0]
          simp [List.countP_cons, isUnfiredBlocking]
        · intro p hpm hub
          rfl
      | nullAssertHit =>
        simp only [step, if_neg hm, runGetTokenBody, hb]
        exact processQueue_inv _ _ hw rfl hp
  | callSetTokens v =>
    by_cases hm : w.mutexLocked = true
    · simp only [step, if_pos hm]
      exact ⟨hw, hcount, hmux⟩
    · have hp : ∀ p ∈ w.pendings, isUnfiredBlocking p = false := by
        intro p hpm
        cases hx : isUnfiredBlocking p
        · rfl
        · exact absurd (hmux p hpm hx) hm
      simp only [step, if_neg hm, runSetTokensBody]
      apply processQueue_inv
      · intro s b hmem hs
        rcases List.mem_append.mp hmem with h2 | h2
        · exact hw s b h2 hs
        · rw [List.mem_singleton, Prod.mk.injEq] at h2
          exact h2.2
      · rfl
      · exact hp
  | fireCallback i =>
    simp only [step]
    cases hpi : w.pendings[i]? with
    | none =>
      simp only [fireRefreshCallback, hpi]
      exact ⟨hw, hcount, hmux⟩
    | some p =>
      obtain ⟨oc, cbT, bt, fired⟩ := p
      cases fired with
      | true =>
        simp only [fireRefreshCallback, hpi, if_true]
        exact ⟨hw, hcount, hmux⟩
      | false =>
        cases oc with
        | failure err =>
          cases bt with
          | none =>
            simp only [fireRefreshCallback, hpi, Bool.false_eq_true, if_false]
            refine ⟨hw, ?_, ?_⟩
            · exact le_trans (countP_set_fired_le _ i _ hpi) hcount
            · intro q hq hubq
              rcases List.mem_or_eq_of_mem_set hq with h2 | h2
              · exact hmux q h2 hubq
              · subst h2
                simp [isUnfiredBlocking] at hubq
          | some id =>
            have hub : isUnfiredBlocking
                { outcome := .failure err, callbackTime := cbT, blockingTask := some id,
                  fired := false } = true := by
              simp [isUnfiredBlocking]
            have hmut : w.mutexLocked = true := hmux _ (List.getElem?_mem hpi) hub
            simp only [fireRefreshCallback, hpi, Bool.false_eq_true, if_false]
            apply processQueue_inv
            · exact hw
            · exact hmut
            · exact set_fired_no_unfired _ i _ hpi hub hcount
        | success newTok expIn =>
          cases ht : w.tokens with
          | none =>
            simp only [fireRefreshCallback, hpi, ht, Bool.false_eq_true, if_false]
            refine ⟨hw, ?_, ?_⟩
            · exact le_trans (countP_set_fired_le _ i _ hpi) hcount
            · intro q hq hubq
              rcases List.mem_or_eq_of_mem_set hq with h2 | h2
              · exact hmux q h2 hubq
              · subst h2
                simp [isUnfiredBlocking] at hubq
          | some t =>
            cases bt with
            | none =>
              simp only [fireRefreshCallback, hpi, ht, Bool.false_eq_true, if_false]
              refine ⟨?_, ?_, ?_⟩
              · intro s b hmem hs
                rcases List.mem_append.mp hmem with h2 | h2
                · exact hw s b h2 hs
                · rw [List.mem_singleton, Prod.mk.injEq] at h2
                  exact absurd h2.1 hs
              · exact le_trans (countP_set_fired_le _ i _ hpi) hcount
              · intro q hq hubq
                rcases List.mem_or_eq_of_mem_set hq with h2 | h2
                · exact hmux q h2 hubq
                · subst h2
                  simp [isUnfiredBlocking] at hubq
            | some id =>
              have hub : isUnfiredBlocking
                  { outcome := .success newTok expIn, callbackTime := cbT, blockingTask := some id,
                    fired := false } = true := by
                simp [isUnfiredBlocking]
              have hmut : w.mutexLocked = true := hmux _ (List.getElem?_mem hpi) hub
              simp only [fireRefreshCallback, hpi, ht, Bool.false_eq_true, if_false]
              apply processQueue_inv
              · intro s b hmem hs
                rcases List.mem_append.mp hmem with h2 | h2
                · exact hw s b h2 hs
                · rw [List.mem_singleton, Prod.mk.injEq] at h2
                  rw [h2.2]
                  exact hmut
              · exact hmut
              · exact set_fired_no_unfired _ i _ hpi hub hcount

/-- The invariant holds along every schedule. -/
theorem exec_inv (evs : List Event) (w : World) (h : WorldInv w) : WorldInv (exec evs w) := by
  induction evs generalizing w with
  | nil => exact h
  | cons e evs ih => exact ih (step w e) (step_inv w e h)

/-- The freshly loaded module state satisfies the invariant. -/
theorem initWorld_inv (tokens0 : Option TokenSet) : WorldInv (initWorld tokens0) := by
  refine ⟨?_, ?_, ?_⟩ <;> simp [initWorld, safeWrites]

/-- C4 counterexample: the claim says every mutation of
`accessToken`/`accessTokenExpiry` occurs only while the token mutex is
held.  At this concrete input a `getToken()` call five minutes before
expiry starts a background refresh and releases the mutex at once; when
the refresh callback later fires, it mutates the token fields while the
mutex is free (the recorded write carries `false` for the lock state), so
the claimed discipline is violated and a second refresh could start while
this one is still in flight. -/
theorem tokenWrite_outside_mutex_cex :
    (exec [.callGetToken 0 0 (.success "B" 3600) 50, .fireCallback 0]
      (initWorld (some ⟨"R", "A", 300000⟩))).writes =
      [(WriteSource.backgroundRefreshCallback, false)] := by
  decide

/-- C4 amended: mutations of the token fields performed through
`setTokens` (login, logout) and by a blocking refresh callback always
happen while the token mutex is held; only a background refresh callback
(started while the cached token was still usable) mutates
`accessToken`/`accessTokenExpiry` after its `getToken()` call has already
released the mutex, so background refreshes escape the mutex serialization. -/
theorem nonBackground_writes_under_mutex (tokens0 : Option TokenSet) (evs : List Event)
    (s : WriteSource) (b : Bool)
    (hmem : (s, b) ∈ (exec evs (initWorld tokens0)).writes)
    (hs : s ≠ WriteSource.backgroundRefreshCallback) : b = true :=
  (exec_inv evs (initWorld tokens0) (initWorld_inv tokens0)).1 s b hmem hs

/-- C4 amended witness: the logout write of a concrete schedule is
recorded with the mutex held. -/
theorem nonBackground_writes_under_mutex_witness :
    ((WriteSource.viaSetTokens, true) ∈
      (exec [.callSetTokens none] (initWorld none)).writes) ∧
    (WriteSource.viaSetTokens ≠ WriteSource.backgroundRefreshCallback) ∧ true = true :=
  ⟨by decide, by decide,
    nonBackground_writes_under_mutex none [.callSetTokens none] WriteSource.viaSetTokens true
      (by decide) (by decide)⟩
